import Mathlib

/-!
Verification development for the EPS Global supplier monitoring tool
(`app.py`).  The Python code is shallowly embedded: strings are modelled
as lists of characters (`PStr`), Python dicts as insertion-ordered
association lists, exceptions as `Option`/`Except`, and the blocking
transport as an oracle function from the attempt index to an optional
decoded response.
-/

namespace SupplierMonitor

/-- Python strings are modelled as lists of characters so that slicing,
`find` and `strip` translate directly. -/
abbrev PStr := List Char

/-- Models Python `str.strip()` (leading and trailing whitespace removed;
Python also strips a few exotic whitespace characters, none of which occur
in the texts handled here). -/
def pyStrip (l : PStr) : PStr :=
  ((l.dropWhile Char.isWhitespace).reverse.dropWhile Char.isWhitespace).reverse

/-- Models Python `str.lower()` (ASCII-faithful). -/
def pyLower (l : PStr) : PStr := l.map Char.toLower

/-- Models Python `str.find(pat)`: index of the first occurrence of `pat`,
`none` standing for the Python value `-1` (the empty pattern is found at 0, as in
Python). -/
def findSub (pat : PStr) : PStr → Option Nat
  | [] => if pat.isEmpty then some 0 else none
  | c :: t => if pat.isPrefixOf (c :: t) then some 0 else (findSub pat t).map (· + 1)

/-- Models the Python substring test `pat in l`. -/
def containsSub (pat l : PStr) : Bool := (findSub pat l).isSome

/-- Models Python `str.find(pat, start)`: search from index `start`. -/
def findFrom (pat l : PStr) (start : Nat) : Option Nat :=
  (findSub pat (l.drop start)).map (· + start)

/-- Models the Python slice `l[a:b]` (for `a ≤ b`; an empty slice otherwise,
as in Python). -/
def pySlice (l : PStr) (a b : Nat) : PStr := (l.drop a).take (b - a)

/-- Models Python `content.split(chr(10))`: split on newline characters,
keeping empty segments. -/
def splitOnNl : PStr → List PStr
  | [] => [[]]
  | c :: t =>
    if c = Char.ofNat 10 then [] :: splitOnNl t
    else
      match splitOnNl t with
      | [] => [[c]]
      | h :: r => (c :: h) :: r

/-- Python truthiness of `dict.get(k)`: `None` and the empty string are
falsy, every other string is truthy. -/
def truthy : Option PStr → Bool
  | none => false
  | some s => !s.isEmpty

/-! ### Python dicts as insertion-ordered association lists -/

/-- Models Python `d.get(k)` / `d[k]` lookup on a dict represented as an
insertion-ordered association list. -/
def assocGet {κ β : Type} [DecidableEq κ] (m : List (κ × β)) (k : κ) : Option β :=
  (m.find? (fun p => decide (p.1 = k))).map (·.2)

/-- Models Python `k in d` key-membership. -/
def assocHasKey {κ β : Type} [DecidableEq κ] (m : List (κ × β)) (k : κ) : Bool :=
  m.any (fun p => decide (p.1 = k))

/-- Models Python `d[k] = v`: replace in place when the key exists
(insertion order preserved), append otherwise. -/
def assocSet {κ β : Type} [DecidableEq κ] (m : List (κ × β)) (k : κ) (v : β) : List (κ × β) :=
  if assocHasKey m k then m.map (fun p => if p.1 = k then (k, v) else p)
  else m ++ [(k, v)]

/-- An article record as built by the parser: a Python dict from field
names to strings. -/
abbrev Dict := List (PStr × PStr)

def titleK : PStr := "title".toList
def summaryK : PStr := "summary".toList
def linkK : PStr := "link".toList

/-- The fresh article dict of app.py line 231: title mapped to the line,
summary and link mapped to the empty string. -/
def mkArt (line : PStr) : Dict := [(titleK, line), (summaryK, []), (linkK, [])]

/-! ### The line-oriented parser `_parse_perplexity_response` -/

/-- The state of the parse loop: the accumulated `articles` list and the
optional `current_article`. -/
structure ParseSt where
  articles : List Dict
  current : Option Dict
deriving DecidableEq, Repr

def httpPat : PStr := "http".toList
def schemePat : PStr := "://".toList

/-- Does the line start with a bullet marker (the startswith tests of
app.py line 228)? -/
def bulletStart (l : PStr) : Bool :=
  match l with
  | [] => false
  | c :: _ => c = '*' || c = '-' || c = '•'

/-- URL extraction of the bare-URL branch (app.py lines 219-221):
`url_start = line.find("http")`; `url_end = line.find(" ", url_start)` when
that is `> 0`, else `len(line)`; result `line[url_start:url_end].strip()`.
The `.getD 0` is unreachable: the branch guard guarantees `"http"` occurs. -/
def extractUrlMain (line : PStr) : PStr :=
  let urlStart := (findSub httpPat line).getD 0
  let urlEnd :=
    match findFrom [' '] line urlStart with
    | some j => if j > 0 then j else line.length
    | none => line.length
  pyStrip (pySlice line urlStart urlEnd)

/-- One iteration of the `for line in lines` loop of
`_parse_perplexity_response` (app.py lines 210-247).  `if current_article:`
is modelled as `isSome`: every dict held in `current_article` has the three
keys of `mkArt`, hence is non-empty, so Python dict truthiness coincides
with being not None.  Likewise the title lookup on the dict cannot raise
`KeyError` because the key is always present, so it is modelled with
`(assocGet _ titleK).getD []`.  The inner redundant bullet test of
app.py line 234 is always true and is folded into the single marker drop. -/
def processLine (st : ParseSt) (rawLine : PStr) : ParseSt :=
  let line := pyStrip rawLine
  if line.isEmpty then st
  else if containsSub httpPat line && containsSub schemePat line then
    -- app.py lines 216-225: a line containing a URL
    match st.current with
    | some ca =>
      if !assocHasKey ca linkK then
        { articles := st.articles ++ [assocSet ca linkK (extractUrlMain line)],
          current := none }
      else st
    | none => st
  else if !bulletStart line then
    -- app.py lines 228-231: a new article title line
    match st.current with
    | some ca => { articles := st.articles ++ [ca], current := some (mkArt line) }
    | none => { st with current := some (mkArt line) }
  else
    -- app.py lines 232-247: a bullet line, marker stripped
    let line2 := pyStrip (line.drop 1)
    if containsSub httpPat line2 && containsSub schemePat line2 then
      match st.current with
      | some ca =>
        { st with current := some (assocSet ca linkK (pyStrip (line2.drop ((findSub httpPat line2).getD 0)))) }
      | none => st
    else
      match st.current with
      | some ca =>
        if ((assocGet ca titleK).getD []).isEmpty then
          { st with current := some (assocSet ca titleK line2) }
        else if ((assocGet ca summaryK).getD []).isEmpty then
          { st with current := some (assocSet ca summaryK line2) }
        else st
      | none => st

/-- The whole line loop starting from the empty accumulator
(app.py lines 206-210). -/
def parseLines (lines : List PStr) : ParseSt :=
  lines.foldl processLine { articles := [], current := none }

/-- The third no-content phrase of app.py line 201, with its apostrophe
written as `Char.ofNat 39`. -/
def couldntFind : PStr := "couldn".toList ++ [Char.ofNat 39] ++ "t find".toList

/-- The three case-insensitive no-new-content phrases of app.py line 201. -/
def noContentPhrases : List PStr :=
  ["no new content".toList, "no recent".toList, couldntFind]

/-- The body of `_parse_perplexity_response` applied to the extracted
`content` string (app.py lines 200-260): the no-new-content fast path, the
line loop, the trailing flush of `current_article`, and the final filter. -/
def parseContent (content : PStr) : List Dict :=
  let lowered := pyLower content
  if containsSub ("no new content".toList) lowered
      || containsSub ("no recent".toList) lowered
      || containsSub couldntFind lowered then []
  else
    let st := parseLines (splitOnNl content)
    let articles := st.articles ++ (match st.current with | some ca => [ca] | none => [])
    articles.filter (fun a =>
      truthy (assocGet a titleK)
        && (truthy (assocGet a summaryK) || truthy (assocGet a linkK)))

/-- Target shape of the extraction at app.py line 197. -/
structure Message where
  content : PStr
deriving DecidableEq, Repr

structure Choice where
  message : Message
deriving DecidableEq, Repr

/-- A decoded API response.  A malformed response (one from which
`choices[0]` cannot be extracted) is represented by an empty `choices`
list; the `KeyError`/`IndexError` it raises in Python is caught at
app.py lines 262-264 and yields `[]`. -/
structure PResponse where
  choices : List Choice
deriving DecidableEq, Repr

/-- The function at app.py lines 194-264: extract the content
string, falling back to the empty list when extraction raises. -/
def parsePerplexityResponse (r : PResponse) : List Dict :=
  match r.choices.get? 0 with
  | none => []  -- IndexError/KeyError caught, return []
  | some c => parseContent c.message.content

/-! ### Query construction in `query_perplexity` (app.py lines 128-175) -/

/-- One entry of `CONFIG["suppliers"]`. -/
structure Supplier where
  name : String
  domain : String
  query : String
deriving DecidableEq, Repr

/-- The seven suppliers of `CONFIG["suppliers"]` (app.py lines 58-94). -/
def configSuppliers : List Supplier :=
  [ ⟨"Edgecore Networks", "edgecore.com", "new products OR news OR announcements OR press release"⟩,
    ⟨"IP Infusion", "ipinfusion.com", "new products OR news OR announcements OR press release"⟩,
    ⟨"II-VI (Formerly Finisar)", "ii-vi.com", "new products OR news OR announcements OR press release"⟩,
    ⟨"Lanner Electronics", "lannerinc.com", "new products OR news OR announcements OR press release"⟩,
    ⟨"Smartoptics", "smartoptics.com", "new products OR news OR announcements OR press release"⟩,
    ⟨"Coherent", "coherent.com", "new products OR news OR announcements OR press release"⟩,
    ⟨"Penguin Computing", "penguincomputing.com", "new products OR news OR announcements OR press release"⟩ ]

/-- A calendar date, as used by `last_scan_date.strftime`. -/
structure PDate where
  month : Nat
  day : Nat
  year : Nat
deriving DecidableEq, Repr

/-- What the code derives from `last_scan_data["last_scan"]`:
`elapsedDays` models `(datetime.now() - last_scan_date).days` (an integer,
possibly negative for a future timestamp) and `date` models
`last_scan_date`. -/
structure LastScan where
  elapsedDays : Int
  date : PDate
deriving DecidableEq, Repr

/-- The time-frame phrase of app.py lines 132-142: absent last scan gives
the empty phrase; `days <= 1` gives "in the last day"; `days <= 7` gives
"in the last week"; otherwise the f-string of app.py line 142. -/
def timeFrame : Option Int → String
  | none => ""
  | some d =>
    if d ≤ 1 then "in the last day"
    else if d ≤ 7 then "in the last week"
    else "in the last " ++ toString d ++ " days"

/-- Zero-pad to two digits, as `%m` and `%d` do. -/
def pad2 (n : Nat) : String := if n < 10 then "0" ++ toString n else toString n

/-- Zero-pad to four digits, as `%Y` does. -/
def pad4 (n : Nat) : String :=
  if n < 10 then "000" ++ toString n
  else if n < 100 then "00" ++ toString n
  else if n < 1000 then "0" ++ toString n
  else toString n

/-- Date formatting with strftime month/day/year (app.py line 174). -/
def formatMDY (d : PDate) : String := pad2 d.month ++ "/" ++ pad2 d.day ++ "/" ++ pad4 d.year

/-- The f-string of app.py line 145. -/
def buildQuery (s : Supplier) (tf : String) : String :=
  "Find " ++ s.query ++ " from " ++ s.domain ++ " " ++ tf
    ++ ". Focus only on new content published since yesterday. Format each result with the title, a brief summary, and the URL."

/-- The request payload fields of app.py lines 154-175 that depend on the
supplier and the scan state (`model` and `messages[0]` are constants;
`searchAfterDateFilter = none` models the `search_after_date_filter` key
being absent from the dict). -/
structure Payload where
  query : String
  searchDomainFilter : List String
  searchRecencyFilter : String
  searchAfterDateFilter : Option String
deriving DecidableEq, Repr

/-- Payload construction (app.py lines 132-175): the time-frame phrase is
embedded in the user-message query; the date filter is added only when a
prior scan exists. -/
def buildPayload (s : Supplier) (ls : Option LastScan) : Payload :=
  { query := buildQuery s (timeFrame (ls.map (·.elapsedDays)))
    searchDomainFilter := [s.domain]
    searchRecencyFilter := "month"
    searchAfterDateFilter := ls.map (fun x => formatMDY x.date) }

/-! ### The retry loop of `query_perplexity` (app.py lines 177-192)

The transport oracle maps an attempt index to `some response` when
`requests.post` + `raise_for_status` + `json()` succeed with that decoded
response, and to `none` when the attempt raises
`requests.exceptions.RequestException`. -/

/-- The trace of one `query_perplexity` run: the returned value (`none`
models the `for` loop falling through, which returns Python `None` and
cannot happen with `max_retries = 3`), the indices of the attempts made,
and the durations passed to `time.sleep`. -/
structure QueryTrace where
  result : Option (List Dict)
  attempts : List Nat
  sleeps : List Nat
deriving DecidableEq, Repr

/-- The `for attempt in range(max_retries)` loop (app.py lines 179-192),
by structural recursion on the remaining iterations
(`fuel = max_retries - attempt`).  A successful attempt returns
`_parse_perplexity_response(result)`; a failed attempt sleeps
`2 ** attempt` unless it is the last (`attempt < max_retries - 1` is
exactly `fuel ≠ 1`), in which case it returns `[]`. -/
def queryLoop (transport : Nat → Option PResponse) : Nat → Nat → QueryTrace
  | 0, _ => { result := none, attempts := [], sleeps := [] }
  | fuel + 1, attempt =>
    match transport attempt with
    | some resp =>
      { result := some (parsePerplexityResponse resp), attempts := [attempt], sleeps := [] }
    | none =>
      if fuel = 0 then
        { result := some [], attempts := [attempt], sleeps := [] }
      else
        let rest := queryLoop transport fuel (attempt + 1)
        { result := rest.result, attempts := attempt :: rest.attempts,
          sleeps := 2 ^ attempt :: rest.sleeps }

/-- The request phase of the query function with `max_retries = 3`
(app.py line 178). -/
def queryPerplexity (transport : Nat → Option PResponse) : QueryTrace :=
  queryLoop transport 3 0

/-! ### The `run` loop (app.py lines 324-348) -/

/-- The per-supplier pipeline body of the `run` loop: `Except.ok` models a
normal return of `query_perplexity`, `Except.error` models any exception
raised inside the `try` block (caught at app.py lines 335-337, recording
`[]` for that supplier). -/
def supplierEntry (p : Supplier → Except String (List Dict)) (s : Supplier) : List Dict :=
  match p s with
  | Except.ok a => a
  | Except.error _ => []

/-- What a run leaves behind: the `all_results` dict and the persisted
`last_scan_data["last_scan"]` value. -/
structure ScanOutcome where
  results : List (String × List Dict)
  savedLastScan : Option String
deriving DecidableEq, Repr

/-- The run loop (app.py lines 324-348): build `all_results` supplier by supplier
(an exception is replaced by `[]`), then set `last_scan_data["last_scan"]`
to the current time and persist.  Email delivery and the inter-supplier
sleep have no effect on the outcome modelled here. -/
def run (p : Supplier → Except String (List Dict)) (suppliers : List Supplier)
    (now : String) : ScanOutcome :=
  { results := suppliers.foldl (fun acc s => assocSet acc s.name (supplierEntry p s)) []
    savedLastScan := some now }

/-- The parse-loop invariant: every emitted article dict has exactly the
three fields of `mkArt`, and an open `current_article` additionally has a
non-empty title. -/
def stInv (st : ParseSt) : Prop :=
  (∀ d ∈ st.articles, ∃ t s l, d = [(titleK, t), (summaryK, s), (linkK, l)]) ∧
  ∀ d, st.current = some d → ∃ t s l, d = [(titleK, t), (summaryK, s), (linkK, l)] ∧ t ≠ []

/-! ### Concrete inputs for the end-to-end scenario -/

/-- The end-to-end scenario input text. -/
def c1Input : PStr :=
  "Edgecore launches NG-OLT\nNew line of optical line terminals.\nhttps://edgecore.com/news/1\n".toList

/-- The single article the scenario expects. -/
def c1Expected : Dict :=
  [ (titleK, "Edgecore launches NG-OLT".toList),
    (summaryK, "New line of optical line terminals.".toList),
    (linkK, "https://edgecore.com/news/1".toList) ]

/-! ## Theorems -/

set_option maxRecDepth 10000

/-- Claim C1, counterexample: on the scenario input the parser does not
return the single expected Article.  The second line opens a second
article (closing the first with empty summary and link), the URL line is
skipped because the key-absence test on the link field at app.py
line 217 is False for every article the parser creates, and the final
filter then drops both title-only articles. -/
theorem c1_scenario_counterexample : parseContent c1Input ≠ [c1Expected] := by decide

/-- Claim C1, amended: on the scenario input the parser returns the empty
sequence. -/
theorem c1_scenario_amended : parseContent c1Input = [] := by decide

/-- Claim C2: processing a bare URL line while an article without a link
is open leaves the parse state unchanged — the URL is not attached and the
article is not closed, because the key-absence guard on the link field
(app.py line 217) is always False: every `current_article` is created with
a link key (app.py line 231). -/
theorem c2_urlline_never_attaches :
    processLine { articles := [], current := some (mkArt ("Edgecore launches NG-OLT".toList)) }
        ("https://edgecore.com/news/1".toList)
      = { articles := [], current := some (mkArt ("Edgecore launches NG-OLT".toList)) } := by
  decide

/-! ### Unfolding lemmas for the retry loop -/

theorem queryLoop_fuel3 (t : Nat → Option PResponse) (a : Nat) :
    queryLoop t 3 a =
      match t a with
      | some resp =>
        { result := some (parsePerplexityResponse resp), attempts := [a], sleeps := [] }
      | none =>
        { result := (queryLoop t 2 (a + 1)).result,
          attempts := a :: (queryLoop t 2 (a + 1)).attempts,
          sleeps := 2 ^ a :: (queryLoop t 2 (a + 1)).sleeps } := rfl

theorem queryLoop_fuel2 (t : Nat → Option PResponse) (a : Nat) :
    queryLoop t 2 a =
      match t a with
      | some resp =>
        { result := some (parsePerplexityResponse resp), attempts := [a], sleeps := [] }
      | none =>
        { result := (queryLoop t 1 (a + 1)).result,
          attempts := a :: (queryLoop t 1 (a + 1)).attempts,
          sleeps := 2 ^ a :: (queryLoop t 1 (a + 1)).sleeps } := rfl

theorem queryLoop_fuel1 (t : Nat → Option PResponse) (a : Nat) :
    queryLoop t 1 a =
      match t a with
      | some resp =>
        { result := some (parsePerplexityResponse resp), attempts := [a], sleeps := [] }
      | none => { result := some [], attempts := [a], sleeps := [] } := rfl

/-- Claim C3: `query_perplexity` makes at most 3 attempts; a transport
failing twice then succeeding yields the parsed result of the third
attempt after sleeps of `2^0 = 1` and `2^1 = 2`; a transport that always
fails exhausts exactly the 3 attempts, sleeps `1` then `2`, and returns
the empty list instead of raising. -/
theorem c3_retry_policy (transport : Nat → Option PResponse) :
    (queryPerplexity transport).attempts.length ≤ 3 ∧
    (∀ r : PResponse, transport 0 = none → transport 1 = none → transport 2 = some r →
      queryPerplexity transport =
        { result := some (parsePerplexityResponse r), attempts := [0, 1, 2], sleeps := [1, 2] }) ∧
    ((∀ i, i < 3 → transport i = none) →
      queryPerplexity transport =
        { result := some [], attempts := [0, 1, 2], sleeps := [1, 2] }) := by
  refine ⟨?_, ?_, ?_⟩
  · rcases h0 : transport 0 with _ | r0 <;>
      rcases h1 : transport 1 with _ | r1 <;>
        rcases h2 : transport 2 with _ | r2 <;>
          simp [queryPerplexity, queryLoop_fuel3, queryLoop_fuel2, queryLoop_fuel1, h0, h1, h2]
  · intro r h0 h1 h2
    simp [queryPerplexity, queryLoop_fuel3, queryLoop_fuel2, queryLoop_fuel1, h0, h1, h2]
  · intro h
    simp [queryPerplexity, queryLoop_fuel3, queryLoop_fuel2, queryLoop_fuel1,
      h 0 (by omega), h 1 (by omega), h 2 (by omega)]

/-- Witness for C3 at a transport that fails twice then succeeds with a
response whose sole choice carries the scenario text, and at one that
always fails. -/
theorem c3_retry_policy_witness :
    queryPerplexity
        (fun i => if i < 2 then none else some { choices := [⟨⟨c1Input⟩⟩] })
      = { result := some [], attempts := [0, 1, 2], sleeps := [1, 2] } ∧
    queryPerplexity (fun _ => none)
      = { result := some [], attempts := [0, 1, 2], sleeps := [1, 2] } := by
  constructor
  · have h := (c3_retry_policy
        (fun i => if i < 2 then none else some { choices := [⟨⟨c1Input⟩⟩] })).2.1
      { choices := [⟨⟨c1Input⟩⟩] } (by decide) (by decide) (by decide)
    have hp : parsePerplexityResponse { choices := [⟨⟨c1Input⟩⟩] } = [] := by decide
    rw [h, hp]
  · exact (c3_retry_policy (fun _ => none)).2.2 (fun i _ => rfl)

/-- Claim C4: if the first `k` attempts fail at the transport level and
attempt `k` receives a successful response `r`, the run stops after the
attempts `0, …, k` and returns `_parse_perplexity_response r` — whatever
`r` is, so in particular an unparsable body never triggers a retry. -/
theorem c4_no_retry_on_unparsable (transport : Nat → Option PResponse) (k : Nat)
    (r : PResponse) (hk : k < 3) (hfail : ∀ i, i < k → transport i = none)
    (hsucc : transport k = some r) :
    (queryPerplexity transport).attempts = List.range (k + 1) ∧
    (queryPerplexity transport).result = some (parsePerplexityResponse r) := by
  interval_cases k
  · simp [queryPerplexity, queryLoop_fuel3, hsucc, List.range_succ]
  · simp [queryPerplexity, queryLoop_fuel3, queryLoop_fuel2,
      hfail 0 (by omega), hsucc, List.range_succ]
  · simp [queryPerplexity, queryLoop_fuel3, queryLoop_fuel2, queryLoop_fuel1,
      hfail 0 (by omega), hfail 1 (by omega), hsucc, List.range_succ]

/-- Witness for C4: a first attempt that succeeds with an unparsable
response (no `choices`) ends the run at once with the empty parse. -/
theorem c4_no_retry_on_unparsable_witness :
    (queryPerplexity (fun _ => some { choices := [] })).attempts = List.range 1 ∧
    (queryPerplexity (fun _ => some { choices := [] })).result = some [] := by
  have h := c4_no_retry_on_unparsable (fun _ => some { choices := [] }) 0
    { choices := [] } (by omega) (fun i hi => absurd hi (by omega)) rfl
  simpa using h

theorem isPrefixOf_append_self (l t : PStr) : l.isPrefixOf (l ++ t) = true := by
  induction l with
  | nil => simp [List.isPrefixOf]
  | cons c l ih => simp [List.isPrefixOf, ih]

theorem containsSub_middle (pat pre post : PStr) :
    containsSub pat (pre ++ (pat ++ post)) = true := by
  induction pre with
  | nil =>
    rcases pat with _ | ⟨c, t⟩
    · rcases post with _ | ⟨d, r⟩ <;> simp [containsSub, findSub, List.isPrefixOf]
    · simp [containsSub, findSub, isPrefixOf_append_self]
  | cons c pre ih =>
    simp only [List.cons_append, containsSub, findSub]
    split
    · simp
    · simpa [containsSub, Option.isSome_map] using ih

/-- Claim C6: any answer text containing one of the three no-new-content
phrases in any letter case parses to the empty sequence via the fast path
of app.py lines 200-203, before the line loop runs. -/
theorem c6_no_content_fast_path (content : PStr) (p : PStr) (hp : p ∈ noContentPhrases)
    (h : ∃ pre mid post, content = pre ++ (mid ++ post) ∧ pyLower mid = p) :
    parseContent content = [] := by
  obtain ⟨pre, mid, post, hc, hm⟩ := h
  have hlow : pyLower content = pyLower pre ++ (p ++ pyLower post) := by
    subst hc
    simp [pyLower, ← hm]
  have hcontains : containsSub p (pyLower content) = true := by
    rw [hlow]; exact containsSub_middle p (pyLower pre) (pyLower post)
  simp only [noContentPhrases, List.mem_cons, List.not_mem_nil, or_false] at hp
  rcases hp with hp | hp | hp <;> subst hp <;>
    · simp only [parseContent]
      rw [hcontains]
      simp

/-! ### Shape of the article dicts built by the parser -/

theorem assocGet_shape_title (t s l : PStr) :
    assocGet [(titleK, t), (summaryK, s), (linkK, l)] titleK = some t := rfl

theorem assocGet_shape_summary (t s l : PStr) :
    assocGet [(titleK, t), (summaryK, s), (linkK, l)] summaryK = some s := rfl

theorem assocGet_shape_link (t s l : PStr) :
    assocGet [(titleK, t), (summaryK, s), (linkK, l)] linkK = some l := rfl

theorem assocHasKey_shape_title (t s l : PStr) :
    assocHasKey [(titleK, t), (summaryK, s), (linkK, l)] titleK = true := rfl

theorem assocHasKey_shape_summary (t s l : PStr) :
    assocHasKey [(titleK, t), (summaryK, s), (linkK, l)] summaryK = true := rfl

theorem assocHasKey_shape_link (t s l : PStr) :
    assocHasKey [(titleK, t), (summaryK, s), (linkK, l)] linkK = true := rfl

theorem assocSet_shape_title (t s l v : PStr) :
    assocSet [(titleK, t), (summaryK, s), (linkK, l)] titleK v
      = [(titleK, v), (summaryK, s), (linkK, l)] := rfl

theorem assocSet_shape_summary (t s l v : PStr) :
    assocSet [(titleK, t), (summaryK, s), (linkK, l)] summaryK v
      = [(titleK, t), (summaryK, v), (linkK, l)] := rfl

theorem assocSet_shape_link (t s l v : PStr) :
    assocSet [(titleK, t), (summaryK, s), (linkK, l)] linkK v
      = [(titleK, t), (summaryK, s), (linkK, v)] := rfl

theorem processLine_inv {st : ParseSt} (rawLine : PStr) (h : stInv st) :
    stInv (processLine st rawLine) := by
  obtain ⟨hart, hcur⟩ := h
  simp only [processLine]
  generalize pyStrip rawLine = line
  by_cases hemp : line.isEmpty = true
  · rw [if_pos hemp]; exact ⟨hart, hcur⟩
  rw [if_neg hemp]
  have hline : line ≠ [] := by
    intro hcontr; subst hcontr; exact hemp rfl
  by_cases hurl : (containsSub httpPat line && containsSub schemePat line) = true
  · rw [if_pos hurl]
    cases hc : st.current with
    | none => exact ⟨hart, hcur⟩
    | some ca =>
      obtain ⟨t, s, l, hshape, ht⟩ := hcur ca hc
      subst hshape
      dsimp only
      have hcond : (!assocHasKey [(titleK, t), (summaryK, s), (linkK, l)] linkK) = false := by
        simp [assocHasKey_shape_link]
      rw [if_neg (by simp [hcond])]
      exact ⟨hart, hcur⟩
  rw [if_neg hurl]
  by_cases hbul : (!bulletStart line) = true
  · rw [if_pos hbul]
    cases hc : st.current with
    | none =>
      refine ⟨hart, ?_⟩
      intro d hd
      have hdd := Option.some_inj.mp hd
      exact ⟨line, [], [], by rw [← hdd]; rfl, hline⟩
    | some ca =>
      obtain ⟨t, s, l, hshape, ht⟩ := hcur ca hc
      constructor
      · intro d hd
        rcases List.mem_append.mp hd with hd | hd
        · exact hart d hd
        · rw [List.mem_singleton.mp hd, hshape]
          exact ⟨t, s, l, rfl⟩
      · intro d hd
        have hdd := Option.some_inj.mp hd
        exact ⟨line, [], [], by rw [← hdd]; rfl, hline⟩
  rw [if_neg hbul]
  by_cases hbu : (containsSub httpPat (pyStrip (List.drop 1 line))
      && containsSub schemePat (pyStrip (List.drop 1 line))) = true
  · rw [if_pos hbu]
    cases hc : st.current with
    | none => exact ⟨hart, hcur⟩
    | some ca =>
      obtain ⟨t, s, l, hshape, ht⟩ := hcur ca hc
      subst hshape
      dsimp only
      rw [assocSet_shape_link]
      refine ⟨hart, ?_⟩
      intro d hd
      have hdd := Option.some_inj.mp hd
      exact ⟨t, s, _, by rw [← hdd], ht⟩
  rw [if_neg hbu]
  cases hc : st.current with
  | none => exact ⟨hart, hcur⟩
  | some ca =>
    obtain ⟨t, s, l, hshape, ht⟩ := hcur ca hc
    subst hshape
    dsimp only
    have htne : t.isEmpty = false := by
      cases t with
      | nil => exact absurd rfl ht
      | cons c r => rfl
    have hcond :
        ((assocGet [(titleK, t), (summaryK, s), (linkK, l)] titleK).getD []).isEmpty = false := by
      rw [assocGet_shape_title]; simpa using htne
    rw [if_neg (by simp [hcond])]
    rw [assocGet_shape_summary]
    by_cases hs : (((some s : Option PStr)).getD []).isEmpty = true
    · rw [if_pos hs, assocSet_shape_summary]
      refine ⟨hart, ?_⟩
      intro d hd
      have hdd := Option.some_inj.mp hd
      exact ⟨t, _, l, by rw [← hdd], ht⟩
    · rw [if_neg hs]
      exact ⟨hart, hcur⟩

theorem parseLines_inv (lines : List PStr) : stInv (parseLines lines) := by
  have key : ∀ st, stInv st → stInv (lines.foldl processLine st) := by
    induction lines with
    | nil => intro st h; exact h
    | cons a t ih => intro st h; exact ih _ (processLine_inv a h)
  exact key _ ⟨fun d hd => absurd hd (List.not_mem_nil d), fun d hd => by cases hd⟩

/-- Witness for C6: an upper-case occurrence of "no new content". -/
theorem c6_no_content_fast_path_witness :
    parseContent ("NO NEW CONTENT was found for edgecore.com.".toList) = [] := by
  refine c6_no_content_fast_path _ ("no new content".toList) (by decide)
    ⟨[], "NO NEW CONTENT".toList, " was found for edgecore.com.".toList, by decide, by decide⟩

/-- Claim C5: the time-frame phrase of the payload is a function of the elapsed
whole days since the last scan — no prior scan gives the empty phrase and
no date filter; `0` or `1` days give "in the last day"; `2` to `7` days
give "in the last week"; more than `7` days give "in the last N days" —
and whenever a prior scan exists the payload carries the last-scan date
formatted `%m/%d/%Y` as its date-lower-bound filter. -/
theorem c5_time_frame_and_date_filter (s : Supplier) (ls : Option LastScan) :
    (buildPayload s ls).searchAfterDateFilter = ls.map (fun x => formatMDY x.date) ∧
    (buildPayload s ls).query = buildQuery s (timeFrame (ls.map (·.elapsedDays))) ∧
    timeFrame none = "" ∧
    (∀ d : Int, 0 ≤ d → d ≤ 1 → timeFrame (some d) = "in the last day") ∧
    (∀ d : Int, 2 ≤ d → d ≤ 7 → timeFrame (some d) = "in the last week") ∧
    (∀ d : Int, 7 < d → timeFrame (some d) = "in the last " ++ toString d ++ " days") := by
  refine ⟨rfl, rfl, rfl, ?_, ?_, ?_⟩
  · intro d _ h1
    simp [timeFrame, h1]
  · intro d h2 h7
    have : ¬ d ≤ 1 := by omega
    simp [timeFrame, this, h7]
  · intro d h7
    have h1 : ¬ d ≤ 1 := by omega
    have h7' : ¬ d ≤ 7 := by omega
    simp [timeFrame, h1, h7']

/-- Witness for C5 at the first configured supplier: no prior scan leaves
the filter absent, and concrete elapsed-day counts `1`, `7`, `8` produce
the three phrases; a prior scan of 2025-05-18 yields the filter
"05/18/2025". -/
theorem c5_time_frame_and_date_filter_witness :
    (buildPayload ⟨"Edgecore Networks", "edgecore.com",
        "new products OR news OR announcements OR press release"⟩ none).searchAfterDateFilter
        = none ∧
    timeFrame (some 1) = "in the last day" ∧
    timeFrame (some 7) = "in the last week" ∧
    timeFrame (some 8) = "in the last " ++ toString (8 : Int) ++ " days" ∧
    (buildPayload ⟨"Edgecore Networks", "edgecore.com",
        "new products OR news OR announcements OR press release"⟩
        (some ⟨3, ⟨5, 18, 2025⟩⟩)).searchAfterDateFilter = some "05/18/2025" := by
  have h0 := c5_time_frame_and_date_filter
    ⟨"Edgecore Networks", "edgecore.com",
      "new products OR news OR announcements OR press release"⟩ (none : Option LastScan)
  have h3 := c5_time_frame_and_date_filter
    ⟨"Edgecore Networks", "edgecore.com",
      "new products OR news OR announcements OR press release"⟩
    (some (⟨3, ⟨5, 18, 2025⟩⟩ : LastScan))
  refine ⟨by simpa using h0.1, h0.2.2.2.1 1 (by omega) (by omega),
    h0.2.2.2.2.1 7 (by omega) (by omega), h0.2.2.2.2.2 8 (by omega), ?_⟩
  rw [h3.1]
  rfl

/-- Claim C7: every Article the parser outputs has a non-empty title
and at least one of summary or link non-empty — the final filter of
app.py lines 253-257 retains exactly those records. -/
theorem c7_output_filter_invariant (content : PStr) (d : Dict)
    (hd : d ∈ parseContent content) :
    truthy (assocGet d titleK) = true ∧
    (truthy (assocGet d summaryK) = true ∨ truthy (assocGet d linkK) = true) := by
  simp only [parseContent] at hd
  split at hd
  · simp at hd
  · have hc := (List.mem_filter.mp hd).2
    simp only [Bool.and_eq_true, Bool.or_eq_true] at hc
    exact ⟨hc.1, hc.2⟩

/-- Witness for C7 at the output of parsing "Title\n* A summary.". -/
theorem c7_output_filter_invariant_witness :
    truthy (assocGet [(titleK, "Title".toList), (summaryK, "A summary.".toList), (linkK, [])]
        titleK) = true ∧
    (truthy (assocGet [(titleK, "Title".toList), (summaryK, "A summary.".toList), (linkK, [])]
        summaryK) = true ∨
      truthy (assocGet [(titleK, "Title".toList), (summaryK, "A summary.".toList), (linkK, [])]
        linkK) = true) :=
  c7_output_filter_invariant ("Title\n* A summary.".toList)
    [(titleK, "Title".toList), (summaryK, "A summary.".toList), (linkK, [])] (by decide)

/-- Claim C8: the parser is total — every exception site
(`KeyError`/`IndexError`, caught at app.py lines 262-264) is an explicit
branch of the embedding, which is a total function — and for every
response it returns a list of article records: each returned dict carries
the `title`, `summary` and `link` keys. -/
theorem c8_parser_total (r : PResponse) (d : Dict)
    (hd : d ∈ parsePerplexityResponse r) :
    assocHasKey d titleK = true ∧ assocHasKey d summaryK = true
      ∧ assocHasKey d linkK = true := by
  unfold parsePerplexityResponse at hd
  split at hd
  · simp at hd
  · next c _ =>
    simp only [parseContent] at hd
    split at hd
    · simp at hd
    · have h := (List.mem_filter.mp hd).1
      rcases List.mem_append.mp h with h | h
      · obtain ⟨t, s, l, hshape⟩ := (parseLines_inv _).1 d h
        subst hshape
        exact ⟨rfl, rfl, rfl⟩
      · rcases hcu : (parseLines (splitOnNl c.message.content)).current with _ | ca
        · rw [hcu] at h; simp at h
        · rw [hcu] at h
          simp only [List.mem_singleton] at h
          obtain ⟨t, s, l, hshape, -⟩ := (parseLines_inv _).2 ca hcu
          rw [h, hshape]
          exact ⟨rfl, rfl, rfl⟩

/-- Witness for C8 at a well-formed response around "Title\n* A summary.". -/
theorem c8_parser_total_witness :
    assocHasKey [(titleK, "Title".toList), (summaryK, "A summary.".toList), (linkK, [])]
        titleK = true ∧
    assocHasKey [(titleK, "Title".toList), (summaryK, "A summary.".toList), (linkK, [])]
        summaryK = true ∧
    assocHasKey [(titleK, "Title".toList), (summaryK, "A summary.".toList), (linkK, [])]
        linkK = true :=
  c8_parser_total { choices := [⟨⟨"Title\n* A summary.".toList⟩⟩] }
    [(titleK, "Title".toList), (summaryK, "A summary.".toList), (linkK, [])] (by decide)

/-- Claim C10: whenever the line loop holds an open `current_article`, its
title is non-empty — articles are opened only by non-blank non-bullet
title lines (app.py line 231) and bullet lines never open one — so the
bullet branch of app.py lines 244-245 that would re-title a title-less
article can never assign. -/
theorem c10_open_article_titled (lines : List PStr) (ca : Dict)
    (h : (parseLines lines).current = some ca) :
    ∃ t s l, ca = [(titleK, t), (summaryK, s), (linkK, l)] ∧ t ≠ [] :=
  (parseLines_inv lines).2 ca h

/-- Witness for C10 after processing the single line "Title". -/
theorem c10_open_article_titled_witness :
    ∃ t s l, mkArt ("Title".toList) = [(titleK, t), (summaryK, s), (linkK, l)] ∧ t ≠ [] :=
  c10_open_article_titled ["Title".toList] (mkArt ("Title".toList)) (by decide)

/-! ### The run loop builds one entry per supplier -/

theorem assocHasKey_append {κ β : Type} [DecidableEq κ] (m1 m2 : List (κ × β)) (k : κ) :
    assocHasKey (m1 ++ m2) k = (assocHasKey m1 k || assocHasKey m2 k) := by
  simp [assocHasKey, List.any_append]

theorem assocSet_of_not_has {κ β : Type} [DecidableEq κ] (m : List (κ × β)) (k : κ) (v : β)
    (h : assocHasKey m k = false) : assocSet m k v = m ++ [(k, v)] := by
  simp [assocSet, h]

theorem foldl_assocSet_eq (p : Supplier → Except String (List Dict)) (l : List Supplier)
    (acc : List (String × List Dict))
    (hdisj : ∀ s ∈ l, assocHasKey acc s.name = false)
    (hnd : (l.map (·.name)).Nodup) :
    l.foldl (fun acc s => assocSet acc s.name (supplierEntry p s)) acc
      = acc ++ l.map (fun s => (s.name, supplierEntry p s)) := by
  induction l generalizing acc with
  | nil => simp
  | cons a t ih =>
    simp only [List.foldl_cons, List.map_cons]
    rw [assocSet_of_not_has _ _ _ (hdisj a (by simp))]
    have hnd' : (∀ x ∈ t, ¬ x.name = a.name) ∧ (t.map (·.name)).Nodup := by
      simpa using hnd
    rw [ih (acc ++ [(a.name, supplierEntry p a)]) ?_ hnd'.2]
    · simp
    · intro s hs
      rw [assocHasKey_append, hdisj s (List.mem_cons_of_mem a hs)]
      have h2 : ¬ (a.name = s.name) := fun he => hnd'.1 s hs he.symm
      simp [assocHasKey, h2]

theorem assocGet_map_name (f : Supplier → List Dict) (l : List Supplier) (s : Supplier)
    (hs : s ∈ l) (hnd : (l.map (·.name)).Nodup) :
    assocGet (l.map (fun x => (x.name, f x))) s.name = some (f s) := by
  induction l with
  | nil => cases hs
  | cons a t ih =>
    have hnd' : (∀ x ∈ t, ¬ x.name = a.name) ∧ (t.map (·.name)).Nodup := by
      simpa using hnd
    rcases List.mem_cons.mp hs with rfl | hs'
    · simp [assocGet, List.find?]
    · have hne : ¬ (a.name = s.name) := fun he => hnd'.1 s hs' he.symm
      simp only [List.map_cons, assocGet]
      rw [List.find?_cons_of_neg _ (by simpa using hne)]
      simpa [assocGet] using ih hs' hnd'.2

/-- Claim C9: a run records one entry per configured supplier, replaces a
supplier whose pipeline raises by the empty sequence and keeps going, and
always persists a last-scan timestamp (app.py lines 324-348). -/
theorem c9_run_resilient (p : Supplier → Except String (List Dict))
    (suppliers : List Supplier) (now : String)
    (hnd : (suppliers.map (·.name)).Nodup) :
    (run p suppliers now).savedLastScan = some now ∧
    (∀ s ∈ suppliers,
      assocGet (run p suppliers now).results s.name = some (supplierEntry p s)) ∧
    (∀ s ∈ suppliers, ∀ e, p s = Except.error e →
      assocGet (run p suppliers now).results s.name = some []) := by
  have hres : (run p suppliers now).results
      = suppliers.map (fun s => (s.name, supplierEntry p s)) := by
    show suppliers.foldl _ [] = _
    simpa using foldl_assocSet_eq p suppliers [] (fun s _ => rfl) hnd
  refine ⟨rfl, ?_, ?_⟩
  · intro s hs
    rw [hres]
    exact assocGet_map_name _ _ _ hs hnd
  · intro s hs e he
    rw [hres, assocGet_map_name _ _ _ hs hnd]
    simp [supplierEntry, he]

/-- Witness for C9: with the configured supplier list, a pipeline that
raises for "IP Infusion" and returns no articles elsewhere still yields a
persisted timestamp and maps "IP Infusion" to the empty sequence. -/
theorem c9_run_resilient_witness :
    (run (fun s => if s.name = "IP Infusion" then Except.error "boom" else Except.ok [])
        configSuppliers "2025-05-21T08:30:00").savedLastScan = some "2025-05-21T08:30:00" ∧
    assocGet (run (fun s => if s.name = "IP Infusion" then Except.error "boom" else Except.ok [])
        configSuppliers "2025-05-21T08:30:00").results "IP Infusion" = some [] := by
  have h := c9_run_resilient
    (fun s => if s.name = "IP Infusion" then Except.error "boom" else Except.ok [])
    configSuppliers "2025-05-21T08:30:00" (by decide)
  refine ⟨h.1, ?_⟩
  have h2 := h.2.2 ⟨"IP Infusion", "ipinfusion.com",
    "new products OR news OR announcements OR press release"⟩ (by decide) "boom" (by rfl)
  simpa using h2

end SupplierMonitor
